import Mathlib

/-!
Verification development for the decaf graph engine (base.py) and its
record storage backend (decaf/puff.py).

Modelling conventions.
* numpy arrays are modelled as `NdArray`: a shape, an element type tag and a
  flat list of rational values (the numeric contents of the claims only use
  addition and subtraction, which ℚ models exactly; floating-point rounding
  is outside the claims).
* Python dictionaries are modelled as association lists in insertion order.
* Python exceptions are modelled by the `PyError` type; a function that can
  raise returns `Except PyError _` or `Option _`, or returns the mutated
  state paired with `Option PyError` when the partial mutations that precede
  the raise are themselves relevant (Python leaves them in place).
* Aliasing numpy views are modelled by value: a mirror copies the current
  value, and the execution model threads a blob store by name, which gives
  the same observable values as the reference-aliasing original.
-/

/-- The Python exception kinds that the embedded code can raise.
The message payloads of the original exceptions are dropped; each
constructor is one exception class. `decafError`, `invalidNetError` and
`invalidLayerError` are the library's own classes from base.py; the rest
are builtin Python exceptions. -/
inductive PyError where
  | decafError : PyError
  | invalidNetError : PyError
  | invalidLayerError : PyError
  | typeError : PyError
  | valueError : PyError
  | keyError : PyError
  | indexError : PyError
  | attributeError : PyError
deriving DecidableEq, Repr

/-- Element type tag of a numpy array (numpy dtype). -/
inductive Dtype where
  | float64 : Dtype
  | float32 : Dtype
  | int32 : Dtype
deriving DecidableEq, Repr

/-- A numpy ndarray: shape, dtype, and the flattened contents. -/
structure NdArray where
  shape : List Nat
  dtype : Dtype
  data : List Rat
deriving DecidableEq, Repr

/-- np.zeros(shape, dtype). -/
def NdArray.zeros (shape : List Nat) (dtype : Dtype) : NdArray :=
  ⟨shape, dtype, List.replicate shape.prod 0⟩

/-- Blob (base.py 46-149): a data array, an optional gradient array, and an
optional filler. A filler writes one value per cell of the data array in
place (numpy fill cannot change the shape or dtype), modelled as a function
from cell index to value. -/
structure Blob where
  _data : Option NdArray
  _diff : Option NdArray
  _filler : Option (Nat → Rat)

/-- Blob() with no shape argument: both arrays absent. -/
def Blob.empty : Blob := ⟨none, none, none⟩

/-- Blob.clear (base.py 66-69): drops both arrays (the filler field is kept). -/
def Blob.clear (b : Blob) : Blob := { b with _data := none, _diff := none }

/-- Blob.has_data (base.py 93-95). -/
def Blob.has_data (b : Blob) : Bool := b._data.isSome

/-- Blob.has_diff (base.py 101-103). -/
def Blob.has_diff (b : Blob) : Bool := b._diff.isSome

/-- Blob.init_data (base.py 118-129): if the data array is present with the
requested shape and dtype it is zero-filled in place, otherwise a fresh zero
array is allocated (the two branches produce the same value in this value
model; the branch is kept to mirror the source). The filler, when present,
is then always applied, writing one value per cell. The Python method
returns a view of the data; here the updated blob is returned. -/
def Blob.init_data (b : Blob) (shape : List Nat) (dtype : Dtype) : Blob :=
  let b1 :=
    if (match b._data with
        | some d => decide (d.shape = shape) && decide (d.dtype = dtype)
        | none => false) then
      { b with _data := some ⟨shape, dtype, List.replicate shape.prod 0⟩ }
    else
      { b with _data := some (NdArray.zeros shape dtype) }
  match b1._filler with
  | some f =>
      { b1 with _data := (b1._data.map
          (fun d => { d with data := (List.range d.data.length).map f })) }
  | none => b1

/-- Blob.init_diff (base.py 131-143): raises ValueError when no data array
exists; otherwise the diff becomes a zero array of the data's shape and
dtype (zero-filled in place when it already matches, reallocated otherwise;
both branches coincide in this value model). -/
def Blob.init_diff (b : Blob) : Option Blob :=
  match b._data with
  | none => none
  | some d => some { b with _diff := some ⟨d.shape, d.dtype, List.replicate d.shape.prod 0⟩ }

/-- Blob.mirror (base.py 71-80): the data becomes a view of the input array
(modelled by value), optionally reshaped; numpy rejects a reshape that
changes the element count. When the Python argument is a Blob the view is
of that blob's data array, so an `NdArray` argument covers both cases. -/
def Blob.mirror (b : Blob) (arr : NdArray) (shape : Option (List Nat)) : Option Blob :=
  match shape with
  | none => some { b with _data := some arr }
  | some s =>
      if s.prod = arr.shape.prod then
        some { b with _data := some { arr with shape := s } }
      else none

/-- Blob.mirror_diff (base.py 82-91): same as mirror, for the diff array. -/
def Blob.mirror_diff (b : Blob) (arr : NdArray) (shape : Option (List Nat)) : Option Blob :=
  match shape with
  | none => some { b with _diff := some arr }
  | some s =>
      if s.prod = arr.shape.prod then
        some { b with _diff := some { arr with shape := s } }
      else none

/-- Blob.update (base.py 109-116): `self._data -= self._diff`, elementwise
subtraction of the diff from the data. Raises AttributeError when either
array is absent; numpy broadcasting of mismatched shapes is not modelled
(the engine only subtracts a diff created by init_diff, whose shape equals
the data's). -/
def Blob.update (b : Blob) : Option Blob :=
  match b._data, b._diff with
  | some d, some g =>
      if d.shape = g.shape then
        some { b with _data := some { d with data := d.data.zipWith (fun x y => x - y) g.data } }
      else none
  | _, _ => none

/-- Does the gradient, when present, match the value array's shape and
element type (the invariant stated in the spec's data model)? -/
def Blob.diff_matches (b : Blob) : Bool :=
  match b._diff, b._data with
  | none, _ => true
  | some g, some d => decide (g.shape = d.shape) && decide (g.dtype = d.dtype)
  | some _, none => false

/-- The behaviour half of the Layer contract (base.py 171-197): forward
takes the bottom and top blobs and produces the new top blob values;
backward takes bottom, top and the propagate_down flag and produces the new
bottom blob values together with the returned loss contribution. The
numeric kernels are modelled as total functions at this interface. -/
structure LayerBehavior where
  forward : List Blob → List Blob → List Blob
  backward : List Blob → List Blob → Bool → (List Blob × Rat)

/-- Layer (base.py 152-206): a name, the freeze flag (spec key freeze,
default False), the owned parameter blobs (self._param) and the
forward/backward behaviour. -/
structure Layer where
  name : String
  freeze : Bool
  param : List Blob
  behavior : LayerBehavior

/-- A generic compute layer with no parameters whose kernels do nothing:
used where a concrete layer object is needed. -/
def plainLayer (n : String) : Layer :=
  ⟨n, false, [], ⟨fun _ top => top, fun bottom _ _ => (bottom, 0)⟩⟩

/-- SplitLayer.forward (base.py 272-281): rejects a bottom of length other
than one (ValueError); otherwise every top mirrors the single bottom's
data. -/
def SplitLayer.forward (bottom top : List Blob) : Except PyError (List Blob) :=
  match bottom with
  | [b] => .ok (top.map (fun t => { t with _data := b._data }))
  | _ => .error .valueError

/-- Accumulation loop of SplitLayer.backward: `diff[:] += single_top.diff()`
over the top blobs. A top without a diff raises AttributeError
(None has no view); numpy broadcasting of mismatched shapes is not
modelled, so a shape mismatch is an error. -/
def accumDiff : List Blob → NdArray → Except PyError NdArray
  | [], acc => .ok acc
  | t :: rest, acc =>
      match t._diff with
      | none => .error .attributeError
      | some g =>
          if g.shape = acc.shape then
            accumDiff rest { acc with data := acc.data.zipWith (fun x y => x + y) g.data }
          else .error .valueError

/-- SplitLayer.backward (base.py 283-289): when propagate_down is set, the
bottom blob's diff is (re)initialized to zeros of the data's shape — this is
`bottom[0].init_diff()`, inlined here, which raises IndexError on an empty
bottom and ValueError when the data is absent — and then the diffs of all
the tops are summed into it; the returned loss is 0. When propagate_down is
not set, nothing is touched and 0 is returned. -/
def SplitLayer.backward (bottom top : List Blob) (propagate_down : Bool) :
    Except PyError (List Blob × Rat) :=
  if propagate_down then
    match bottom with
    | [] => .error .indexError
    | b :: rest =>
        match b._data with
        | none => .error .valueError
        | some d =>
            match accumDiff top ⟨d.shape, d.dtype, List.replicate d.shape.prod 0⟩ with
            | .error e => .error e
            | .ok arr => .ok ({ b with _diff := some arr } :: rest, 0)
  else .ok (bottom, 0)

/-- SplitLayer(name=n) as a Layer value (base.py 264-293): no parameters,
not frozen; the scheduler-facing behaviour wraps the faithful
Except-valued kernels, whose error paths are unreachable for the
engine-inserted splits (one bottom with data, tops with matching diffs). -/
def SplitLayer.make (n : String) : Layer :=
  ⟨n, false, [],
    ⟨fun bottom top => ((SplitLayer.forward bottom top).toOption).getD top,
     fun bottom top pd => ((SplitLayer.backward bottom top pd).toOption).getD (bottom, 0)⟩⟩

/-- Association-list lookup for the string-keyed Python dictionaries. -/
def lookupA {β : Type} (l : List (String × β)) (k : String) : Option β :=
  match l with
  | [] => none
  | kv :: rest => if kv.1 = k then some kv.2 else lookupA rest k

/-- Dictionary assignment d[k] = v: overwrite in place when the key exists,
append otherwise (insertion order). -/
def upsert {β : Type} (k : String) (v : β) : List (String × β) → List (String × β)
  | [] => [(k, v)]
  | kv :: rest => if kv.1 = k then (k, v) :: rest else kv :: upsert k v rest

/-- The keys of an association list. -/
def keysOf {β : Type} (l : List (String × β)) : List String := l.map Prod.fst

/-- defaultdict(int) increment: self._need_count[name] += 1. -/
def bumpCount (cnt : List (String × Nat)) (k : String) : List (String × Nat) :=
  upsert k ((lookupA cnt k).getD 0 + 1) cnt

/-- The per-node flags that finish stores on the graph nodes (base.py
482-506): need_backward for every node, propagate_down for layer nodes
only. -/
structure NodeFlags where
  nb : Bool
  pd : Option Bool
deriving DecidableEq, Repr

/-- One entry of the forward plan (base.py 511-516): layer name, the layer,
and the names of its bound bottom (actual needs) and top (provides)
blobs. -/
structure FwdEntry where
  name : String
  layer : Layer
  bottoms : List String
  tops : List String

/-- One entry of the backward plan (base.py 518-525): layer name, the
layer, the names of its bound bottom (original needs) and top (provides)
blobs, and the propagate_down flag. -/
structure BwdEntry where
  name : String
  layer : Layer
  bottoms : List String
  tops : List String
  propagate_down : Bool

/-- Net (base.py 336-370): the registered blobs and layers, the per-layer
needs/provides lists, the per-blob consumer counts, and the inferred
schedule state. The networkx graph is modelled as its directed edge list
plus the node-attribute map of flags. Python 2 dictionaries are modelled
in registration order. -/
structure Net where
  name : String
  blobs : List (String × Blob)
  layers : List (String × Layer)
  _needs : List (String × List String)
  _provides : List (String × List String)
  _need_count : List (String × Nat)
  _forward_order : Option (List FwdEntry)
  _backward_order : Option (List BwdEntry)
  _input_blobs : Option (List String)
  _output_blobs : Option (List String)
  _params : Option (List Blob)
  _finished : Bool
  _actual_needs : Option (List (String × List String))
  _graph : List (String × String)
  _flags : String → Option NodeFlags

/-- Net() (base.py 339-370): everything empty, nothing inferred yet. -/
def Net.new : Net :=
  ⟨"decaf_net", [], [], [], [], [], none, none, none, none, none, false, none, [],
   fun _ => none⟩

/-- The provides-validation loop of add_layer (base.py 451-454): raise
InvalidNetError at the first provided name that is already a blob of the
net. No state is mutated by this loop. -/
def checkProvides (blobs : List (String × Blob)) : List String → Option PyError
  | [] => none
  | p :: rest =>
      if (keysOf blobs).contains p then some .invalidNetError
      else checkProvides blobs rest

/-- The needs+provides loop of add_layer (base.py 455-460): raise
InvalidNetError at the first name that is also a layer name (the layers
dictionary already contains the layer being added); otherwise create the
blob when it does not exist yet. Returns the blob dictionary as mutated up
to the raise. -/
def addBlobsLoop (layers : List (String × Layer)) (blobs : List (String × Blob)) :
    List String → (List (String × Blob)) × Option PyError
  | [] => (blobs, none)
  | x :: rest =>
      if (keysOf layers).contains x then (blobs, some .invalidNetError)
      else if (keysOf blobs).contains x then addBlobsLoop layers blobs rest
      else addBlobsLoop layers (blobs ++ [(x, Blob.empty)]) rest

/-- Net.add_layer (base.py 427-466). The schedule is invalidated first
(self._finished = False); then the layer name is checked against the layer
and blob namespaces and the layer is inserted; then each provided name is
checked against the existing blobs; then each needs/provides name is
checked against the layer names and missing blobs are created; finally the
consumer counts and the needs/provides lists are recorded and
_actual_needs is reset. A raise leaves the mutations made so far in place,
so the mutated net is returned together with the error. The
string-to-singleton-list normalization of the Python keyword arguments is
outside this model: needs and provides are lists. -/
def Net.add_layer (net : Net) (layer : Layer) (needs provides : List String) :
    Net × Option PyError :=
  let net := { net with _finished := false }
  if (keysOf net.layers).contains layer.name || (keysOf net.blobs).contains layer.name then
    (net, some .invalidNetError)
  else
    let net := { net with layers := net.layers ++ [(layer.name, layer)] }
    match checkProvides net.blobs provides with
    | some e => (net, some e)
    | none =>
        match addBlobsLoop net.layers net.blobs (needs ++ provides) with
        | (blobs2, some e) => ({ net with blobs := blobs2 }, some e)
        | (blobs2, none) =>
            ({ net with
                blobs := blobs2,
                _need_count := needs.foldl bumpCount net._need_count,
                _needs := upsert layer.name needs net._needs,
                _provides := upsert layer.name provides net._provides,
                _actual_needs := none }, none)

/-- Net._generate_graph as written (base.py 538-586). Lines 543-553 compute
and store the input blobs (blobs no layer provides) and the output blobs
(blobs no layer needs). Line 557 then reads
`for name, count in self._need_count.iteritems:` — the bound method
iteritems is never called, and iterating a bound method raises TypeError in
Python 2 before the loop body ever runs. No split layer is therefore ever
inserted and the rest of the function (rewiring, graph build) is
unreachable; the mutations made before the raise stay in place. -/
def Net.generate_graph_literal (net : Net) : Net × Option PyError :=
  let providedBlobs := (net._provides.map Prod.snd).flatten
  let inputBlobs := (keysOf net.blobs).filter (fun n => !(providedBlobs.contains n))
  let outputBlobs := (keysOf net.blobs).filter (fun n => !((keysOf net._need_count).contains n))
  ({ net with _input_blobs := some inputBlobs, _output_blobs := some outputBlobs },
   some .typeError)

/-- Rewiring of one needs list (the intent of base.py 564-577): a blob with
more than one consumer is replaced by the next unused split output
_decaf_<blob>_<j>, counting consumers in order; a blob with a single
consumer stays. The running per-blob index is threaded through. -/
def rewireNeeds (fanout : List (String × Nat)) :
    List String → List (String × Nat) → List String × List (String × Nat)
  | [], idx => ([], idx)
  | b :: rest, idx =>
      if (lookupA fanout b).getD 0 > 1 then
        let j := (lookupA idx b).getD 0
        let r := rewireNeeds fanout rest (upsert b (j + 1) idx)
        (("_decaf" ++ "_" ++ b ++ "_" ++ toString j) :: r.1, r.2)
      else
        let r := rewireNeeds fanout rest idx
        (b :: r.1, r.2)

/-- Rewiring of every registered layer's needs list, in registration
order: first-registered consumer gets split output 0, and so on. -/
def rewireAll (fanout : List (String × Nat)) :
    List (String × List String) → List (String × Nat) → List (String × List String)
  | [], _ => []
  | ln :: rest, idx =>
      let r := rewireNeeds fanout ln.2 idx
      (ln.1, r.1) :: rewireAll fanout rest r.2

/-- Modelled from the spec: the graph-generation step of finish. The
source's Net._generate_graph (base.py 538-586) is malformed — it iterates
the uncalled bound method _need_count.iteritems, calls str.flatten with three
arguments, iterates dictionaries as if they were pair lists and assigns
into the None-valued _actual_needs — so it cannot execute as written; the
spec (sections 4.4 and 9) states the intended behaviour, which this
definition follows. Input blobs are the blobs no layer provides and output
blobs the blobs no layer needs (as in the executable lines 543-553 of the
source). For every blob with more than one consumer, one split layer named
_decaf<blob> is registered through add_layer, needing that blob and
providing one fresh blob _decaf_<blob>_<i> per consumer; each original
consumer's needs are rewired to a distinct split output in registration
order. The dependency graph has an edge from every (possibly rewired)
needed blob to its consumer layer and from every layer to every blob it
provides. -/
def Net.generate_graph_spec (net : Net) : Net :=
  let providedBlobs := (net._provides.map Prod.snd).flatten
  let inputBlobs := (keysOf net.blobs).filter (fun n => !(providedBlobs.contains n))
  let outputBlobs := (keysOf net.blobs).filter (fun n => !((keysOf net._need_count).contains n))
  let fanout := net._need_count
  let origNeeds := net._needs
  let net2 := fanout.foldl
    (fun acc kv =>
      if kv.2 > 1 then
        (acc.add_layer (SplitLayer.make ("_decaf" ++ kv.1)) [kv.1]
          ((List.range kv.2).map (fun i => "_decaf" ++ "_" ++ kv.1 ++ "_" ++ toString i))).1
      else acc)
    net
  let actual := rewireAll fanout origNeeds []
  let splitNeeds := fanout.filterMap
    (fun kv => if kv.2 > 1 then some ("_decaf" ++ kv.1, [kv.1]) else none)
  let actualAll := actual ++ splitNeeds
  let edges :=
    (actualAll.map (fun p => p.2.map (fun b => (b, p.1)))).flatten ++
    (net2._provides.map (fun p => p.2.map (fun b => (p.1, b)))).flatten
  { net2 with
      _input_blobs := some inputBlobs,
      _output_blobs := some outputBlobs,
      _actual_needs := some actualAll,
      _graph := edges }

/-- The direct predecessors of a node in the edge-list graph. -/
def predsIn (edges : List (String × String)) (n : String) : List String :=
  edges.filterMap (fun e => if e.2 = n then some e.1 else none)

/-- `any(self._graph.node[p]['need_backward'] for p in predecessors(name))`
(base.py 484-485). A node that has not been assigned yet counts as False;
in finish every predecessor precedes the node in the topological order, so
the flag is always present there (a missing key would be a Python
KeyError). -/
def predNB (edges : List (String × String)) (flags : String → Option NodeFlags)
    (n : String) : Bool :=
  (predsIn edges n).any (fun p => ((flags p).map NodeFlags.nb).getD false)

/-- One iteration of the flag loop of finish (base.py 482-506) at node n:
a layer node gets need_backward when a predecessor has it or the layer has
parameters and is not frozen, and propagate_down exactly when a
predecessor has need_backward; a blob node gets need_backward as the OR of
its predecessors' flags. -/
def stepFlags (layers : List (String × Layer)) (edges : List (String × String))
    (flags : String → Option NodeFlags) (n : String) : String → Option NodeFlags :=
  let pred := predNB edges flags n
  match lookupA layers n with
  | some layer =>
      fun x => if x = n then
        some ⟨pred || (!layer.param.isEmpty && !layer.freeze), some pred⟩
      else flags x
  | none =>
      fun x => if x = n then some ⟨pred, none⟩ else flags x

/-- The flag loop of finish (base.py 482-506), walking the topological
order. -/
def runFlags (layers : List (String × Layer)) (edges : List (String × String))
    (topo : List String) : String → Option NodeFlags :=
  topo.foldl (stepFlags layers edges) (fun _ => none)

/-- need_backward of a node, read back from the flag map. -/
def nbOf (flags : String → Option NodeFlags) (n : String) : Bool :=
  ((flags n).map NodeFlags.nb).getD false

/-- Net.finish (base.py 468-532) given the topological order:
nx.topological_sort is an external library call, modelled by taking a
valid topological order of the generated graph as an argument (the
DecafError on a cyclic graph corresponds to no such order existing), and
_generate_graph is the spec-modelled graph generation above. The flag loop
runs over the order; the forward plan is the order restricted to layers,
each bound to its actual needs and its provides; the backward plan is the
reversed layer order restricted to layers whose need_backward flag is set,
each bound to its original needs (as in the source), its provides and its
propagate_down flag; the parameters are collected in forward order; the
net is marked finished. The layer lookups cannot miss (layerorder is
filtered on membership), so the getD defaults are unreachable. -/
def Net.finish_with_order (net : Net) (topo : List String) : Net :=
  let net1 := net.generate_graph_spec
  let flags := runFlags net1.layers net1._graph topo
  let layerorder := topo.filter (fun n => (lookupA net1.layers n).isSome)
  let fwd := layerorder.map (fun n =>
    FwdEntry.mk n ((lookupA net1.layers n).getD (plainLayer n))
      ((net1._actual_needs.bind (fun m => lookupA m n)).getD [])
      ((lookupA net1._provides n).getD []))
  let bwd := (layerorder.reverse.filter (fun n => nbOf flags n)).map (fun n =>
    BwdEntry.mk n ((lookupA net1.layers n).getD (plainLayer n))
      ((lookupA net1._needs n).getD [])
      ((lookupA net1._provides n).getD [])
      (((flags n).bind NodeFlags.pd).getD false))
  let params := (layerorder.map (fun n => ((lookupA net1.layers n).getD (plainLayer n)).param)).flatten
  { net1 with
      _flags := flags,
      _forward_order := some fwd,
      _backward_order := some bwd,
      _params := some params,
      _finished := true }

/-- One forward call (base.py 606-607): layer.forward(bottom, top), with
the bottom and top blobs looked up by name in the blob store and the
returned top values written back. The lookups cannot miss on a finished
net (every plan name is a key of self.blobs), so the default is
unreachable. -/
def fstep (store : List (String × Blob)) (e : FwdEntry) : List (String × Blob) :=
  let bottom := e.bottoms.map (fun x => (lookupA store x).getD Blob.empty)
  let top := e.tops.map (fun x => (lookupA store x).getD Blob.empty)
  let newTops := e.layer.behavior.forward bottom top
  (e.tops.zip newTops).foldl (fun s kv => upsert kv.1 kv.2 s) store

/-- The forward loop of forward_backward and predict (base.py 606-607 and
623-624). -/
def runForwardPlan (plan : List FwdEntry) (store : List (String × Blob)) :
    List (String × Blob) :=
  plan.foldl fstep store

/-- One backward call (base.py 609-613): layer.backward(bottom, top,
propagate_down); the returned bottom values are written back, and the
returned loss contribution is passed out. -/
def bstep (store : List (String × Blob)) (e : BwdEntry) : List (String × Blob) × Rat :=
  let bottom := e.bottoms.map (fun x => (lookupA store x).getD Blob.empty)
  let top := e.tops.map (fun x => (lookupA store x).getD Blob.empty)
  let r := e.layer.behavior.backward bottom top e.propagate_down
  ((e.bottoms.zip r.1).foldl (fun s kv => upsert kv.1 kv.2 s) store, r.2)

/-- The loss contributions returned by the backward calls of a plan, in
plan order, threading the blob store exactly as the backward loop does. -/
def bwdLosses : List BwdEntry → List (String × Blob) → List Rat
  | [], _ => []
  | e :: rest, store =>
      let r := bstep store e
      r.2 :: bwdLosses rest r.1

/-- Net.forward_backward (base.py 588-614): DecafError when the net is not
finished; `len(self._input_blobs)` is a TypeError on None (unreachable
once finished); DecafError when input blobs remain (predict should be used
instead); the warning about unused output blobs is logging only; then the
forward plan runs in order, the backward plan runs in order with
`loss += layer_loss` starting from 0, and the accumulated loss is
returned. -/
def Net.forward_backward (net : Net) : Except PyError Rat :=
  if net._finished = false then .error .decafError
  else
    match net._input_blobs with
    | none => .error .typeError
    | some inputs =>
        if inputs.length ≠ 0 then .error .decafError
        else
          match net._forward_order, net._backward_order with
          | some fwd, some bwd =>
              let store1 := runForwardPlan fwd net.blobs
              let r := bwd.foldl (fun acc e =>
                let s := bstep acc.1 e
                (s.1, acc.2 + s.2)) (store1, (0 : Rat))
              .ok r.2
          | _, _ => .error .typeError

/-- The mirror loop of predict (base.py 621-622): each supplied array is
aliased into the blob of the same name; a name that is not a blob of the
net is a KeyError. -/
def mirrorAll (blobs : List (String × Blob)) :
    List (String × NdArray) → Except PyError (List (String × Blob))
  | [] => .ok blobs
  | kv :: rest =>
      match lookupA blobs kv.1 with
      | none => .error .keyError
      | some b =>
          match b.mirror kv.2 none with
          | none => .error .valueError
          | some b2 => mirrorAll (upsert kv.1 b2 blobs) rest

/-- Collect `self.blobs[name].data()` for the output blobs (base.py
625-626): a missing blob is a KeyError and an absent data array is an
AttributeError (None has no view). -/
def collectOutputs (store : List (String × Blob)) :
    List String → Except PyError (List (String × NdArray))
  | [] => .ok []
  | n :: rest =>
      match lookupA store n with
      | none => .error .keyError
      | some b =>
          match b._data with
          | none => .error .attributeError
          | some d =>
              match collectOutputs store rest with
              | .error e => .error e
              | .ok out => .ok ((n, d) :: out)

/-- Net.predict (base.py 616-626). There is no finalization check: the
supplied arrays are mirrored into the blobs, then the forward plan is
iterated — when the net has never been finished self._forward_order is
None and iterating it raises TypeError — and the output blobs' data is
returned. -/
def Net.predict (net : Net) (kwargs : List (String × NdArray)) :
    Except PyError (List (String × NdArray)) :=
  match mirrorAll net.blobs kwargs with
  | .error e => .error e
  | .ok store0 =>
      match net._forward_order with
      | none => .error .typeError
      | some fwd =>
          let store1 := runForwardPlan fwd store0
          match net._output_blobs with
          | none => .error .typeError
          | some outs => collectOutputs store1 outs

/-- Is the raised error one of the library's own designed usage errors
(base.py raises DecafError for programmer misuse), as opposed to an
incidental interpreter error such as TypeError? -/
def isUsageError {α : Type} : Except PyError α → Bool
  | .error .decafError => true
  | .error .invalidNetError => true
  | .error .invalidLayerError => true
  | _ => false

/-- Puff (decaf/puff.py 8-139): an open record store. The raw file is
modelled at record granularity (np.fromfile of count*step elements from
the position of record curr is exactly the records curr..curr+count), with
one abstract value per record. The icing metadata gives the total record
count; a sub-range [start, end) restricts reading. -/
structure Puff (α : Type) where
  file : List α
  _num_data : Nat
  _start : Nat
  _stop : Nat
  _curr : Nat
  _num_local_data : Nat

/-- Puff.seek (puff.py 112-117): ValueError outside [start, stop);
otherwise the position moves. -/
def Puff.seek {α : Type} (p : Puff α) (offset : Nat) : Except PyError (Puff α) :=
  if offset < p._start ∨ offset ≥ p._stop then .error .valueError
  else .ok { p with _curr := offset }

/-- Puff.read (puff.py 119-134): ValueError when count exceeds the local
record count; a read that stays inside the range returns the next count
records and advances, wrapping back to the range start when the range end
is hit exactly; a read that crosses the range end is split into the part
up to the end followed by the rest, and the two results are concatenated
(np.vstack). A position at or past the range end cannot arise (seek
refuses it); that branch is an error so the recursion is well founded. -/
def Puff.read {α : Type} (p : Puff α) (count : Nat) :
    Except PyError (List α × Puff α) :=
  if count > p._num_local_data then .error .valueError
  else if p._curr + count ≤ p._stop then
    if p._curr + count = p._stop then
      match Puff.seek { p with _curr := p._curr + count } p._start with
      | .error e => .error e
      | .ok q2 => .ok ((p.file.drop p._curr).take count, q2)
    else .ok ((p.file.drop p._curr).take count, { p with _curr := p._curr + count })
  else if _h : p._curr < p._stop then
    match p.read (p._stop - p._curr) with
    | .error e => .error e
    | .ok r1 =>
        match r1.2.read (count - (p._stop - p._curr)) with
        | .error e => .error e
        | .ok r2 => .ok (r1.1 ++ r2.1, r2.2)
  else .error .valueError
termination_by count
decreasing_by
  · omega
  · omega

/-- A layer with one parameter blob and inert kernels. -/
def paramLayer (n : String) : Layer :=
  ⟨n, false, [Blob.empty], ⟨fun _ top => top, fun bottom _ _ => (bottom, 0)⟩⟩

/-- A layer whose backward call returns a fixed loss contribution. -/
def lossyLayer (n : String) (l : Rat) : Layer :=
  ⟨n, false, [], ⟨fun _ top => top, fun bottom _ _ => (bottom, l)⟩⟩

/-- The validation condition of add_layer exactly as the spec words it:
the layer's name is already a layer or blob name, or a provided name is
already provided by another layer (a member of some registered provides
list), or a needs/provides name collides with an existing layer name. -/
def addLayerClaimCond (net : Net) (layer : Layer) (needs provides : List String) : Bool :=
  (keysOf net.layers).contains layer.name ||
  (keysOf net.blobs).contains layer.name ||
  provides.any (fun p => ((net._provides.map Prod.snd).flatten).contains p) ||
  (needs ++ provides).any (fun x => (keysOf net.layers).contains x)

/-- u occurs strictly before v in the list (both present). -/
def occursBefore : List String → String → String → Bool
  | [], _, _ => false
  | x :: rest, u, v =>
      (decide (x = u) && rest.contains v) || (decide (x ≠ v) && occursBefore rest u v)

/-- Is the list a topological order of the edge list: every edge's source
occurs strictly before its target (nx.topological_sort's contract on the
orders it returns). -/
def topoSortedB (topo : List String) (edges : List (String × String)) : Bool :=
  edges.all (fun e => occursBefore topo e.1 e.2)

/-- Layer A provides x; layers B and C both need x: the minimal fan-out
net of the split-layer claim. -/
def netC1 : Net :=
  (((Net.new.add_layer (plainLayer "A") [] ["x"]).1.add_layer
      (plainLayer "B") ["x"] ["y"]).1.add_layer
      (plainLayer "C") ["x"] ["z"]).1

/-- A parameterized layer A feeding a plain layer B through blob x. -/
def netC2 : Net :=
  ((Net.new.add_layer (paramLayer "A") [] ["x"]).1.add_layer
      (plainLayer "B") ["x"] ["y"]).1

/-- A topological order of netC2's generated graph. -/
def topoC2 : List String := ["A", "x", "B", "y"]

/-- A parameterized layer A feeding a layer B whose backward call returns
loss 7, through blob x. -/
def netC3 : Net :=
  ((Net.new.add_layer (paramLayer "A") [] ["x"]).1.add_layer
      (lossyLayer "B" 7) ["x"] ["y"]).1

/-- A topological order of netC3's generated graph. -/
def topoC3 : List String := ["A", "x", "B", "y"]

/-- A net whose layer B needs blob x; nothing provides x yet. -/
def netC4 : Net := (Net.new.add_layer (plainLayer "B") ["x"] ["y"]).1

/-- A net whose layer P provides blob w. -/
def netC10 : Net := (Net.new.add_layer (plainLayer "P") [] ["w"]).1

/-- A bottom blob for the split-layer backward pass: data of shape [2]. -/
def blobC6 : Blob := ⟨some ⟨[2], .float64, [5, 6]⟩, none, none⟩

/-- A top blob carrying gradient [1, 2]. -/
def topC6a : Blob := ⟨none, some ⟨[2], .float64, [1, 2]⟩, none⟩

/-- A top blob carrying gradient [10, 20]. -/
def topC6b : Blob := ⟨none, some ⟨[2], .float64, [10, 20]⟩, none⟩

/-- A blob with value [5, 6] and gradient [1, 2]. -/
def blobC7 : Blob :=
  ⟨some ⟨[2], .float64, [5, 6]⟩, some ⟨[2], .float64, [1, 2]⟩, none⟩

/-- A blob of shape [2] with an initialized gradient, built through
init_data and init_diff. -/
def blobC8 : Option Blob := (Blob.empty.init_data [2] .float64).init_diff

/-- A blob with data of shape [2] and no gradient yet. -/
def blobC8w : Blob := ⟨some ⟨[2], .float64, [3, 4]⟩, none, none⟩

/-- An open puff store over records 10..50 with active range [1, 4) and
current position 3: a read of two records crosses the range end. -/
def puffC9 : Puff Nat := ⟨[10, 20, 30, 40, 50], 5, 1, 4, 3, 3⟩

/-- The diff contents of a blob ([] when absent; only applied to blobs
whose diff is present). -/
def diffData (t : Blob) : List Rat := (t._diff.map NdArray.data).getD []

/-- Elementwise accumulation of the diffs of a list of blobs into a data
list: the functional contents of the split layer's backward loop. -/
def sumInto (top : List Blob) (a : List Rat) : List Rat :=
  top.foldl (fun acc t => acc.zipWith (fun x y => x + y) (diffData t)) a

theorem getD_zipWith (f : Rat → Rat → Rat) (l1 l2 : List Rat) (i : Nat)
    (h1 : i < l1.length) (h2 : i < l2.length) :
    (List.zipWith f l1 l2).getD i 0 = f (l1.getD i 0) (l2.getD i 0) := by
  induction l1 generalizing l2 i with
  | nil => simp at h1
  | cons a t ih =>
      cases l2 with
      | nil => simp at h2
      | cons b t2 =>
          cases i with
          | zero => simp
          | succ n =>
              simp only [List.zipWith, List.getD_cons_succ]
              exact ih t2 n (by simpa using h1) (by simpa using h2)

/-- C1: in the source, finish's graph generation crashes with a TypeError
(the uncalled bound method self._need_count.iteritems is iterated) on the
minimal fan-out net — layer A provides x, layers B and C both need x —
before any split layer is inserted: the layer set stays A, B, C and no
layer carrying the synthetic _decaf prefix exists, where the claim asks
for exactly one split layer with two outputs and rewired consumers. -/
theorem C1_generate_graph_crashes :
    (netC1.generate_graph_literal).2 = some PyError.typeError ∧
    keysOf (netC1.generate_graph_literal).1.layers = ["A", "B", "C"] ∧
    ((keysOf (netC1.generate_graph_literal).1.layers).all
      (fun n => !(n.startsWith "_decaf"))) = true := by
  refine ⟨rfl, rfl, rfl⟩

/-- C7: for a blob with both arrays present and of equal shape, update
replaces the value by the elementwise difference value minus gradient —
the gradient is subtracted, never added — leaving everything else
unchanged, for any shape. -/
theorem C7_update_subtracts (b : Blob) (d g : NdArray)
    (hd : b._data = some d) (hg : b._diff = some g)
    (hshape : d.shape = g.shape) (hlen : d.data.length = g.data.length) :
    b.update = some { b with _data := some { d with data := d.data.zipWith (fun x y => x - y) g.data } } ∧
    ∀ i, i < d.data.length →
      (d.data.zipWith (fun x y => x - y) g.data).getD i 0 =
        d.data.getD i 0 - g.data.getD i 0 := by
  constructor
  · simp [Blob.update, hd, hg, hshape]
  · intro i hi
    exact getD_zipWith _ _ _ i hi (hlen ▸ hi)

theorem C7_update_subtracts_witness :
    blobC7.update = some ⟨some ⟨[2], Dtype.float64, [4, 4]⟩,
      some ⟨[2], Dtype.float64, [1, 2]⟩, none⟩ := by
  have h := (C7_update_subtracts blobC7 ⟨[2], Dtype.float64, [5, 6]⟩
    ⟨[2], Dtype.float64, [1, 2]⟩ rfl rfl rfl rfl).1
  rw [h]
  norm_num [blobC7]

/-- C8 counterexample: a blob with value and gradient of shape [2]
(diff_matches holds) loses the invariant after init_data with shape [3] —
the data array is reallocated but the stale gradient of shape [2] is kept,
so the gradient no longer matches the value's shape. -/
theorem C8_init_data_breaks_invariant :
    blobC8.map Blob.diff_matches = some true ∧
    blobC8.map (fun b => (b.init_data [3] Dtype.float64).diff_matches) = some false := by
  refine ⟨rfl, rfl⟩

/-- C8 amended: the gradient-matches-value invariant is established by
init_diff and preserved by clear, by update, and by init_data when called
with the value's current shape and dtype; it is not preserved by init_data
with a different shape or dtype (nor by mirror/mirror_diff), which
is what the counterexample exhibits. -/
theorem C8_invariant_pieces (b : Blob) :
    (∀ b2, b.init_diff = some b2 → b2.diff_matches = true) ∧
    (b.clear.diff_matches = true) ∧
    (∀ b2, b.update = some b2 → b.diff_matches = true → b2.diff_matches = true) ∧
    (∀ d, b._data = some d → b.diff_matches = true →
      (b.init_data d.shape d.dtype).diff_matches = true) := by
  refine ⟨?_, ?_, ?_, ?_⟩
  · intro b2 h
    unfold Blob.init_diff at h
    cases hd : b._data with
    | none => rw [hd] at h; exact absurd h (by simp)
    | some d =>
        rw [hd] at h
        simp only [Option.some.injEq] at h
        subst h
        simp [Blob.diff_matches, hd]
  · simp [Blob.clear, Blob.diff_matches]
  · intro b2 h hm
    cases hd : b._data with
    | none => simp [Blob.update, hd] at h
    | some d =>
        cases hg : b._diff with
        | none => simp [Blob.update, hd, hg] at h
        | some g =>
            simp only [Blob.update, hd, hg] at h
            by_cases hs : d.shape = g.shape
            · rw [if_pos hs] at h
              simp only [Option.some.injEq] at h
              subst h
              unfold Blob.diff_matches at hm ⊢
              rw [hd, hg] at hm
              simpa using hm
            · rw [if_neg hs] at h; exact absurd h (by simp)
  · intro d hd hm
    unfold Blob.diff_matches at hm
    unfold Blob.init_data
    rw [hd] at hm
    cases hg : b._diff with
    | none =>
        cases hf : b._filler with
        | none => simp [hf, Blob.diff_matches, hg, hd]
        | some f => simp [hf, Blob.diff_matches, hg, hd]
    | some g =>
        rw [hg] at hm
        simp only [Bool.and_eq_true, decide_eq_true_eq] at hm
        cases hf : b._filler with
        | none => simp [hf, hd, Blob.diff_matches, hg, hm.1, hm.2]
        | some f => simp [hf, hd, Blob.diff_matches, hg, hm.1, hm.2]

theorem C8_invariant_pieces_witness :
    Blob.diff_matches ⟨some ⟨[2], Dtype.float64, [3, 4]⟩,
      some ⟨[2], Dtype.float64, [0, 0]⟩, none⟩ = true :=
  (C8_invariant_pieces blobC8w).1
    ⟨some ⟨[2], Dtype.float64, [3, 4]⟩, some ⟨[2], Dtype.float64, [0, 0]⟩, none⟩ rfl

theorem accumDiff_ok (top : List Blob) (acc : NdArray) (n : Nat)
    (hlen : acc.data.length = n)
    (htop : ∀ t ∈ top, ∃ g, t._diff = some g ∧ g.shape = acc.shape ∧ g.data.length = n) :
    accumDiff top acc = .ok ⟨acc.shape, acc.dtype, sumInto top acc.data⟩ ∧
    (sumInto top acc.data).length = n ∧
    ∀ i, i < n → (sumInto top acc.data).getD i 0 =
      acc.data.getD i 0 + (top.map (fun t => (diffData t).getD i 0)).sum := by
  induction top generalizing acc with
  | nil =>
      refine ⟨rfl, hlen, ?_⟩
      intro i hi
      simp [sumInto]
  | cons t rest ih =>
      obtain ⟨g, hg, hgs, hgl⟩ := htop t (by simp)
      have hstep : sumInto (t :: rest) acc.data =
          sumInto rest (acc.data.zipWith (fun x y => x + y) (diffData t)) := rfl
      have hdd : diffData t = g.data := by simp [diffData, hg]
      have hlen2 : (acc.data.zipWith (fun x y => x + y) (diffData t)).length = n := by
        rw [hdd]
        simp [List.length_zipWith, hlen, hgl]
      have ih2 := ih { acc with data := acc.data.zipWith (fun x y => x + y) (diffData t) }
        (by simpa using hlen2)
        (by intro u hu
            obtain ⟨g2, h1, h2, h3⟩ := htop u (by simp [hu])
            exact ⟨g2, h1, h2, h3⟩)
      refine ⟨?_, ?_, ?_⟩
      · show accumDiff (t :: rest) acc = _
        unfold accumDiff
        simp only [hg]
        rw [if_pos hgs]
        rw [hstep]
        have := ih2.1
        simpa [hdd] using this
      · rw [hstep]; exact ih2.2.1
      · intro i hi
        rw [hstep]
        have h3 := ih2.2.2 i hi
        simp only at h3
        rw [h3]
        have h4 : (acc.data.zipWith (fun x y => x + y) (diffData t)).getD i 0 =
            acc.data.getD i 0 + (diffData t).getD i 0 := by
          apply getD_zipWith
          · omega
          · rw [hdd]; omega
        rw [h4]
        simp [add_assoc]

theorem getD_replicate_zero (n i : Nat) : (List.replicate n (0 : Rat)).getD i 0 = 0 := by
  induction n generalizing i with
  | zero => simp
  | succ m ih =>
      cases i with
      | zero => simp [List.replicate]
      | succ j => simp only [List.replicate, List.getD_cons_succ]; exact ih j

/-- C6: for a split layer whose single bottom blob has initialized data and
whose N top blobs carry gradients of the data's shape, backward with
propagate_down true replaces the bottom's gradient by the elementwise sum
of the N top gradients (accumulated into a fresh zero array, so any stale
bottom gradient is discarded) and returns loss 0; with propagate_down
false it touches nothing and returns loss 0. -/
theorem C6_split_backward_sums (b : Blob) (d : NdArray) (rest top : List Blob)
    (hd : b._data = some d)
    (htop : ∀ t ∈ top, ∃ g, t._diff = some g ∧ g.shape = d.shape ∧
      g.data.length = d.shape.prod) :
    SplitLayer.backward (b :: rest) top true =
      .ok ({ b with _diff := some ⟨d.shape, d.dtype, sumInto top (List.replicate d.shape.prod 0)⟩ } :: rest, 0) ∧
    (∀ i, i < d.shape.prod →
      (sumInto top (List.replicate d.shape.prod 0)).getD i 0 =
        (top.map (fun t => (diffData t).getD i 0)).sum) ∧
    SplitLayer.backward (b :: rest) top false = .ok (b :: rest, 0) := by
  have hacc := accumDiff_ok top ⟨d.shape, d.dtype, List.replicate d.shape.prod 0⟩
    d.shape.prod (by simp) (by simpa using htop)
  refine ⟨?_, ?_, ?_⟩
  · unfold SplitLayer.backward
    simp only [if_pos trivial, hd]
    rw [hacc.1]
  · intro i hi
    have := hacc.2.2 i hi
    simp only at this
    rw [this, getD_replicate_zero, zero_add]
  · rfl

theorem C6_split_backward_sums_witness :
    SplitLayer.backward [blobC6] [topC6a, topC6b] true =
      .ok ([⟨some ⟨[2], Dtype.float64, [5, 6]⟩, some ⟨[2], Dtype.float64, [11, 22]⟩, none⟩], 0) ∧
    SplitLayer.backward [blobC6] [topC6a, topC6b] false = .ok ([blobC6], 0) := by
  have h := C6_split_backward_sums blobC6 ⟨[2], Dtype.float64, [5, 6]⟩ [] [topC6a, topC6b]
    rfl
    (by intro t ht
        simp only [List.mem_cons, List.not_mem_nil, or_false] at ht
        rcases ht with h | h
        · exact ⟨⟨[2], Dtype.float64, [1, 2]⟩, by rw [h]; exact rfl, rfl, rfl⟩
        · exact ⟨⟨[2], Dtype.float64, [10, 20]⟩, by rw [h]; exact rfl, rfl, rfl⟩)
  refine ⟨?_, h.2.2⟩
  rw [h.1]
  norm_num [sumInto, diffData, topC6a, topC6b, blobC6, List.replicate]

/-- C9: on an open store with a valid active range, a current position
inside it and a count within the local record total, a read that crosses
the range end (1) equals the two consecutive reads split at the boundary,
concatenated, (2) leaves the first of those reads repositioned at the
range start, and (3) returns exactly the records from the current position
to the range end followed by the records from the range start. -/
theorem C9_read_wraparound {α : Type} (p : Puff α) (count : Nat)
    (hrange : p._start < p._stop) (hc1 : p._start ≤ p._curr) (hc2 : p._curr < p._stop)
    (hlocal : p._num_local_data = p._stop - p._start)
    (hcount : count ≤ p._num_local_data)
    (hcross : p._stop < p._curr + count) :
    (p.read (p._stop - p._curr)).map (fun r => r.2._curr) = .ok p._start ∧
    p.read count =
      (match p.read (p._stop - p._curr) with
       | .error e => .error e
       | .ok r1 =>
           match r1.2.read (count - (p._stop - p._curr)) with
           | .error e => .error e
           | .ok r2 => .ok (r1.1 ++ r2.1, r2.2)) ∧
    p.read count = .ok
      ((p.file.drop p._curr).take (p._stop - p._curr) ++
        (p.file.drop p._start).take (count - (p._stop - p._curr)),
       { p with _curr := p._start + (count - (p._stop - p._curr)) }) := by
  have h1 : p.read (p._stop - p._curr) =
      .ok ((p.file.drop p._curr).take (p._stop - p._curr), { p with _curr := p._start }) := by
    unfold Puff.read
    rw [if_neg (show ¬ p._stop - p._curr > p._num_local_data by omega),
        if_pos (show p._curr + (p._stop - p._curr) ≤ p._stop by omega),
        if_pos (show p._curr + (p._stop - p._curr) = p._stop by omega)]
    unfold Puff.seek
    rw [if_neg (show ¬ (p._start < p._start ∨ p._start ≥ p._stop) by omega)]
  have h2 : Puff.read { p with _curr := p._start } (count - (p._stop - p._curr)) =
      .ok ((p.file.drop p._start).take (count - (p._stop - p._curr)),
        { p with _curr := p._start + (count - (p._stop - p._curr)) }) := by
    unfold Puff.read
    simp only
    rw [if_neg (show ¬ count - (p._stop - p._curr) > p._num_local_data by omega),
        if_pos (show p._start + (count - (p._stop - p._curr)) ≤ p._stop by omega),
        if_neg (show ¬ p._start + (count - (p._stop - p._curr)) = p._stop by omega)]
  have h3 : p.read count = .ok
      ((p.file.drop p._curr).take (p._stop - p._curr) ++
        (p.file.drop p._start).take (count - (p._stop - p._curr)),
       { p with _curr := p._start + (count - (p._stop - p._curr)) }) := by
    unfold Puff.read
    rw [if_neg (show ¬ count > p._num_local_data by omega)]
    rw [if_neg (show ¬ p._curr + count ≤ p._stop by omega)]
    rw [dif_pos hc2]
    rw [h1]
    simp only
    rw [h2]
  refine ⟨?_, ?_, h3⟩
  · rw [h1]; rfl
  · rw [h3, h1]
    simp only
    rw [h2]

theorem C9_read_wraparound_witness :
    puffC9.read 2 = .ok ([40, 20], ⟨[10, 20, 30, 40, 50], 5, 1, 4, 2, 3⟩) ∧
    (puffC9.read 1).map (fun r => r.2._curr) = .ok 1 := by
  have h := C9_read_wraparound puffC9 2 (by decide) (by decide) (by decide)
    (by decide) (by decide) (by decide)
  exact ⟨h.2.2, h.1⟩

theorem checkProvides_isSome_iff (blobs : List (String × Blob)) (l : List String) :
    (checkProvides blobs l).isSome = true ↔ ∃ p ∈ l, p ∈ keysOf blobs := by
  induction l with
  | nil => simp [checkProvides]
  | cons x rest ih =>
      simp only [checkProvides]
      by_cases hx : (keysOf blobs).contains x
      · simp only [if_pos hx, Option.isSome_some, true_iff]
        exact ⟨x, by simp, List.elem_iff.mp hx⟩
      · rw [if_neg hx, ih]
        constructor
        · rintro ⟨p, hp, hpk⟩
          exact ⟨p, List.mem_cons_of_mem x hp, hpk⟩
        · rintro ⟨p, hp, hpk⟩
          rcases List.mem_cons.mp hp with h | h
          · subst h; exact absurd (List.elem_iff.mpr hpk) hx
          · exact ⟨p, h, hpk⟩

theorem checkProvides_invalidNet (blobs : List (String × Blob)) (l : List String)
    (e : PyError) (h : checkProvides blobs l = some e) : e = .invalidNetError := by
  induction l with
  | nil => simp [checkProvides] at h
  | cons x rest ih =>
      simp only [checkProvides] at h
      by_cases hx : (keysOf blobs).contains x
      · rw [if_pos hx] at h
        exact (Option.some.inj h).symm
      · rw [if_neg hx] at h
        exact ih h

theorem addBlobsLoop_err_iff (layers : List (String × Layer))
    (blobs : List (String × Blob)) (l : List String) :
    ((addBlobsLoop layers blobs l).2).isSome = true ↔ ∃ x ∈ l, x ∈ keysOf layers := by
  induction l generalizing blobs with
  | nil => simp [addBlobsLoop]
  | cons x rest ih =>
      simp only [addBlobsLoop]
      by_cases hx : (keysOf layers).contains x
      · simp only [if_pos hx, Option.isSome_some, true_iff]
        exact ⟨x, by simp, List.elem_iff.mp hx⟩
      · rw [if_neg hx]
        have hiff : ∀ bl2 : List (String × Blob),
            ((addBlobsLoop layers bl2 rest).2).isSome = true ↔
              ∃ x2 ∈ x :: rest, x2 ∈ keysOf layers := by
          intro bl2
          rw [ih bl2]
          constructor
          · rintro ⟨p, hp, hk⟩
            exact ⟨p, List.mem_cons_of_mem x hp, hk⟩
          · rintro ⟨p, hp, hk⟩
            rcases List.mem_cons.mp hp with h | h
            · subst h; exact absurd (List.elem_iff.mpr hk) hx
            · exact ⟨p, h, hk⟩
        by_cases hb : (keysOf blobs).contains x
        · rw [if_pos hb]; exact hiff blobs
        · rw [if_neg hb]; exact hiff (blobs ++ [(x, Blob.empty)])



/-- C4 amended: add_layer raises exactly when the layer's name is already
a layer or blob name, or one of its provided names already exists as a
blob of the net — whether provided by another layer or merely referenced
so far only as a need — or one of its needs/provides names equals a layer
name, the layer being added included. -/
theorem C4_add_layer_raises_iff (net : Net) (layer : Layer) (needs provides : List String) :
    (net.add_layer layer needs provides).2.isSome = true ↔
      (layer.name ∈ keysOf net.layers ∨ layer.name ∈ keysOf net.blobs ∨
       (∃ p ∈ provides, p ∈ keysOf net.blobs) ∨
       (∃ x ∈ needs ++ provides, x ∈ keysOf net.layers ∨ x = layer.name)) := by
  unfold Net.add_layer
  simp only
  by_cases h1 : ((keysOf net.layers).contains layer.name ||
      (keysOf net.blobs).contains layer.name) = true
  · rw [if_pos h1]
    simp only [Option.isSome_some, true_iff]
    rcases Bool.or_eq_true_iff.mp h1 with h | h
    · exact Or.inl (List.elem_iff.mp h)
    · exact Or.inr (Or.inl (List.elem_iff.mp h))
  · rw [if_neg h1]
    have hna1 : layer.name ∉ keysOf net.layers := fun hmem =>
      h1 (Bool.or_eq_true_iff.mpr (Or.inl (List.elem_iff.mpr hmem)))
    have hna2 : layer.name ∉ keysOf net.blobs := fun hmem =>
      h1 (Bool.or_eq_true_iff.mpr (Or.inr (List.elem_iff.mpr hmem)))
    cases hcp : checkProvides net.blobs provides with
    | some e =>
        simp only [Option.isSome_some, true_iff]
        have hsome : (checkProvides net.blobs provides).isSome = true := by rw [hcp]; rfl
        exact Or.inr (Or.inr (Or.inl ((checkProvides_isSome_iff _ _).mp hsome)))
    | none =>
        cases haL : addBlobsLoop (net.layers ++ [(layer.name, layer)]) net.blobs
            (needs ++ provides) with
        | mk blobs2 oe =>
            have hkeys : keysOf (net.layers ++ [(layer.name, layer)]) =
                keysOf net.layers ++ [layer.name] := by simp [keysOf]
            cases oe with
            | some e =>
                simp only [Option.isSome_some, true_iff]
                have hsome : ((addBlobsLoop (net.layers ++ [(layer.name, layer)]) net.blobs
                    (needs ++ provides)).2).isSome = true := by rw [haL]; rfl
                obtain ⟨x, hxmem, hxk⟩ := (addBlobsLoop_err_iff _ _ _).mp hsome
                rw [hkeys] at hxk
                rcases List.mem_append.mp hxk with h | h
                · exact Or.inr (Or.inr (Or.inr ⟨x, hxmem, Or.inl h⟩))
                · exact Or.inr (Or.inr (Or.inr ⟨x, hxmem, Or.inr (by simpa using h)⟩))
            | none =>
                constructor
                · intro hcontra
                  exact absurd hcontra (by simp)
                · rintro (h | h | ⟨p, hp, hpk⟩ | ⟨x, hx, hxk⟩)
                  · exact absurd h hna1
                  · exact absurd h hna2
                  · have hsome : (checkProvides net.blobs provides).isSome = true :=
                      (checkProvides_isSome_iff _ _).mpr ⟨p, hp, hpk⟩
                    rw [hcp] at hsome
                    exact absurd hsome (by simp)
                  · have hsome : ((addBlobsLoop (net.layers ++ [(layer.name, layer)])
                        net.blobs (needs ++ provides)).2).isSome = true := by
                      apply (addBlobsLoop_err_iff _ _ _).mpr
                      refine ⟨x, hx, ?_⟩
                      rw [hkeys]
                      rcases hxk with h | h
                      · exact List.mem_append.mpr (Or.inl h)
                      · exact List.mem_append.mpr (Or.inr (by simp [h]))
                    rw [haL] at hsome
                    exact absurd hsome (by simp)

/-- C4 counterexample: layer B (needs x, provides y) is registered first,
so blob x exists but no layer provides it; registering layer A with
provides=[x] violates none of the claim's three conditions — A is a fresh
name, x is provided by no layer, and neither needs nor provides collides
with a layer name — yet add_layer raises InvalidNetError, because the code
checks the provided name against all existing blobs, not against provided
blobs. -/
theorem C4_add_layer_raises_counterexample :
    (netC4.add_layer (plainLayer "A") [] ["x"]).2 = some PyError.invalidNetError ∧
    addLayerClaimCond netC4 (plainLayer "A") [] ["x"] = false := by
  exact ⟨rfl, rfl⟩

/-- C10: whenever add_layer fails because a provided blob name already
exists among the net's blobs, the failed call has already registered the
layer — the new name is in the layer mapping of the returned state — and
has already invalidated the schedule (_finished is False): add_layer is
not atomic. -/
theorem C10_add_layer_not_atomic (net : Net) (layer : Layer) (needs provides : List String)
    (h1 : layer.name ∉ keysOf net.layers) (h2 : layer.name ∉ keysOf net.blobs)
    (h3 : ∃ p ∈ provides, p ∈ keysOf net.blobs) :
    (net.add_layer layer needs provides).2 = some PyError.invalidNetError ∧
    layer.name ∈ keysOf (net.add_layer layer needs provides).1.layers ∧
    (net.add_layer layer needs provides).1._finished = false := by
  unfold Net.add_layer
  simp only
  have hc : ¬((keysOf net.layers).contains layer.name ||
      (keysOf net.blobs).contains layer.name) = true := by
    intro hcontra
    rcases Bool.or_eq_true_iff.mp hcontra with h | h
    · exact h1 (List.elem_iff.mp h)
    · exact h2 (List.elem_iff.mp h)
  rw [if_neg hc]
  cases hcp : checkProvides net.blobs provides with
  | none =>
      have hsome : (checkProvides net.blobs provides).isSome = true :=
        (checkProvides_isSome_iff _ _).mpr h3
      rw [hcp] at hsome
      exact absurd hsome (by simp)
  | some e =>
      have he := checkProvides_invalidNet _ _ _ hcp
      subst he
      refine ⟨rfl, ?_, rfl⟩
      simp [keysOf]

theorem C10_add_layer_not_atomic_witness :
    (netC10.add_layer (plainLayer "Q") [] ["w"]).2 = some PyError.invalidNetError ∧
    "Q" ∈ keysOf (netC10.add_layer (plainLayer "Q") [] ["w"]).1.layers ∧
    (netC10.add_layer (plainLayer "Q") [] ["w"]).1._finished = false := by
  have h := C10_add_layer_not_atomic netC10 (plainLayer "Q") [] ["w"]
    (by decide) (by decide) ⟨"w", by decide, by decide⟩
  exact h

theorem mem_keysOf_cons {β : Type} (kv : String × β) (rest : List (String × β)) (m : String) :
    m ∈ keysOf (kv :: rest) ↔ m = kv.1 ∨ m ∈ keysOf rest := by
  simp [keysOf]

theorem lookupA_isSome_of_mem {β : Type} (l : List (String × β)) (k : String)
    (h : k ∈ keysOf l) : (lookupA l k).isSome = true := by
  induction l with
  | nil => simp [keysOf] at h
  | cons kv rest ih =>
      simp only [lookupA]
      by_cases hk : kv.1 = k
      · rw [if_pos hk]; rfl
      · rw [if_neg hk]
        apply ih
        rcases (mem_keysOf_cons kv rest k).mp h with h2 | h2
        · exact absurd h2.symm hk
        · exact h2

theorem mem_keysOf_upsert {β : Type} (l : List (String × β)) (k m : String) (v : β)
    (h : m ∈ keysOf l) : m ∈ keysOf (upsert k v l) := by
  induction l with
  | nil => simp [keysOf] at h
  | cons kv rest ih =>
      simp only [upsert]
      rcases (mem_keysOf_cons kv rest m).mp h with h2 | h2
      · by_cases hk : kv.1 = k
        · rw [if_pos hk]
          apply (mem_keysOf_cons (k, v) rest m).mpr
          exact Or.inl (h2.trans hk)
        · rw [if_neg hk]
          exact (mem_keysOf_cons kv _ m).mpr (Or.inl h2)
      · by_cases hk : kv.1 = k
        · rw [if_pos hk]
          exact (mem_keysOf_cons (k, v) rest m).mpr (Or.inr h2)
        · rw [if_neg hk]
          exact (mem_keysOf_cons kv _ m).mpr (Or.inr (ih h2))

theorem mirrorAll_ok (blobs : List (String × Blob)) (kwargs : List (String × NdArray))
    (hk : ∀ kv ∈ kwargs, kv.1 ∈ keysOf blobs) :
    ∃ st, mirrorAll blobs kwargs = .ok st := by
  induction kwargs generalizing blobs with
  | nil => exact ⟨blobs, rfl⟩
  | cons kv rest ih =>
      simp only [mirrorAll]
      have hmem := hk kv (by simp)
      cases hl : lookupA blobs kv.1 with
      | none =>
          have := lookupA_isSome_of_mem blobs kv.1 hmem
          rw [hl] at this
          exact absurd this (by simp)
      | some b =>
          show ∃ st, mirrorAll (upsert kv.1 { b with _data := some kv.2 } blobs) rest = .ok st
          apply ih
          intro kv2 h2
          exact mem_keysOf_upsert blobs kv.1 kv2.1 _ (hk kv2 (by simp [h2]))

/-- C5 counterexample: on a freshly built, never finished net, predict
does not raise a designed usage error — it raises TypeError from iterating
the absent (None) forward plan, there being no finalization check in
predict at all — so it is not the case that every forward/backward entry
point raises a usage error before finalization. -/
theorem C5_predict_no_usage_error :
    Net.new._finished = false ∧
    Net.new.predict [] = .error PyError.typeError ∧
    isUsageError (Net.new.predict []) = false := by
  exact ⟨rfl, rfl, rfl⟩

/-- C5 amended: on a non-finalized net, forward_backward raises the
designed DecafError usage error before executing any layer; predict,
which has no finalization check, instead fails with a TypeError when it
iterates the never-initialized forward plan (after aliasing any supplied
inputs whose names are blobs of the net). -/
theorem C5_unfinished_execution (net : Net) (kwargs : List (String × NdArray))
    (hf : net._finished = false) (ho : net._forward_order = none)
    (hk : ∀ kv ∈ kwargs, kv.1 ∈ keysOf net.blobs) :
    net.forward_backward = .error PyError.decafError ∧
    net.predict kwargs = .error PyError.typeError := by
  constructor
  · unfold Net.forward_backward
    rw [hf]
    simp
  · unfold Net.predict
    obtain ⟨st, hst⟩ := mirrorAll_ok net.blobs kwargs hk
    rw [hst]
    simp only
    rw [ho]

theorem C5_unfinished_execution_witness :
    Net.new.forward_backward = .error PyError.decafError ∧
    Net.new.predict [] = .error PyError.typeError :=
  C5_unfinished_execution Net.new [] rfl rfl (by intro kv h; simp at h)

theorem stepFlags_ne (layers : List (String × Layer)) (edges : List (String × String))
    (m : String → Option NodeFlags) (n x : String) (h : x ≠ n) :
    stepFlags layers edges m n x = m x := by
  unfold stepFlags
  cases hl : lookupA layers n with
  | some layer => simp [hl, h]
  | none => simp [hl, h]

theorem foldl_stepFlags_not_mem (layers : List (String × Layer))
    (edges : List (String × String)) (l : List String)
    (m : String → Option NodeFlags) (n : String) (h : n ∉ l) :
    (l.foldl (stepFlags layers edges) m) n = m n := by
  induction l generalizing m with
  | nil => rfl
  | cons x rest ih =>
      simp only [List.foldl_cons]
      rw [ih _ (fun hc => h (List.mem_cons_of_mem x hc))]
      exact stepFlags_ne layers edges m x n (fun he => h (he ▸ List.mem_cons_self x rest))

theorem occursBefore_split (topo : List String) (u v : String)
    (hnd : topo.Nodup) (hob : occursBefore topo u v = true) :
    ∀ l1 l2, topo = l1 ++ v :: l2 → u ∈ l1 := by
  induction topo with
  | nil => simp [occursBefore] at hob
  | cons x rest ih =>
      intro l1 l2 heq
      simp only [occursBefore] at hob
      rcases Bool.or_eq_true_iff.mp hob with h | h
      · obtain ⟨hxu, hcv⟩ := Bool.and_eq_true_iff.mp h
        have hxu2 : x = u := of_decide_eq_true hxu
        have hvrest : v ∈ rest := List.elem_iff.mp hcv
        cases l1 with
        | nil =>
            exfalso
            simp only [List.nil_append, List.cons.injEq] at heq
            have hxnot : x ∉ rest := (List.nodup_cons.mp hnd).1
            exact hxnot (heq.1 ▸ hvrest)
        | cons y l1t =>
            simp only [List.cons_append, List.cons.injEq] at heq
            rw [← hxu2, ← heq.1]
            exact List.mem_cons_self x l1t
      · obtain ⟨hxv, hrec⟩ := Bool.and_eq_true_iff.mp h
        have hxv2 : x ≠ v := of_decide_eq_true hxv
        cases l1 with
        | nil =>
            exfalso
            simp only [List.nil_append, List.cons.injEq] at heq
            exact hxv2 heq.1
        | cons y l1t =>
            simp only [List.cons_append, List.cons.injEq] at heq
            exact List.mem_cons_of_mem y
              (ih (List.nodup_cons.mp hnd).2 hrec l1t l2 heq.2)

theorem any_congr_on (l : List String) (f g : String → Bool)
    (h : ∀ p ∈ l, f p = g p) : l.any f = l.any g := by
  induction l with
  | nil => rfl
  | cons x rest ih =>
      simp only [List.any_cons]
      rw [h x (by simp), ih (fun p hp => h p (by simp [hp]))]

theorem predNB_congr (edges : List (String × String))
    (m1 m2 : String → Option NodeFlags) (n : String)
    (h : ∀ p ∈ predsIn edges n, m1 p = m2 p) :
    predNB edges m1 n = predNB edges m2 n := by
  unfold predNB
  exact any_congr_on _ _ _ (fun p hp => by rw [h p hp])

theorem mem_predsIn (edges : List (String × String)) (u n : String) :
    u ∈ predsIn edges n ↔ (u, n) ∈ edges := by
  unfold predsIn
  rw [List.mem_filterMap]
  constructor
  · rintro ⟨e, he, hif⟩
    obtain ⟨a, b⟩ := e
    by_cases h : b = n
    · simp only [h, if_pos rfl] at hif
      have ha : a = u := Option.some.inj hif
      rw [← ha, ← h]
      exact he
    · rw [if_neg h] at hif
      exact absurd hif (by simp)
  · intro he
    exact ⟨(u, n), he, by simp⟩

/-- C2: after a successful finish (with any valid topological order of the
generated graph), every layer node's need_backward flag equals
"the layer has at least one parameter and is not frozen, or some direct
predecessor's need_backward flag is set", and its propagate_down flag
equals "some direct predecessor's need_backward flag is set" — where
predecessors and flags are read from the finished net itself. -/
theorem C2_backward_flags (net : Net) (topo : List String)
    (hnd : topo.Nodup)
    (hts : topoSortedB topo (net.generate_graph_spec)._graph = true) :
    ∀ n layer, n ∈ topo →
      lookupA (net.generate_graph_spec).layers n = some layer →
      (net.finish_with_order topo)._flags n =
        some ⟨(predNB (net.generate_graph_spec)._graph
                  (net.finish_with_order topo)._flags n
                || (!layer.param.isEmpty && !layer.freeze)),
              some (predNB (net.generate_graph_spec)._graph
                  (net.finish_with_order topo)._flags n)⟩ := by
  intro n layer hn hlay
  have hflags : (net.finish_with_order topo)._flags =
      runFlags (net.generate_graph_spec).layers (net.generate_graph_spec)._graph topo := rfl
  rw [hflags]
  obtain ⟨l1, l2, hsplit⟩ := List.append_of_mem hn
  have hndsplit := hsplit ▸ hnd
  have hnl2 : n ∉ l2 := by
    have h2 := List.nodup_append.mp hndsplit
    exact (List.nodup_cons.mp h2.2.1).1
  have hl1n : ∀ p ∈ l1, p ≠ n ∧ p ∉ l2 := by
    intro p hp
    have h2 := List.nodup_append.mp hndsplit
    have hdisj := h2.2.2
    constructor
    · intro he
      exact hdisj hp (he ▸ List.mem_cons_self n l2)
    · intro hml2
      exact hdisj hp (List.mem_cons_of_mem n hml2)
  have hfold : runFlags (net.generate_graph_spec).layers (net.generate_graph_spec)._graph topo =
      l2.foldl (stepFlags (net.generate_graph_spec).layers (net.generate_graph_spec)._graph)
        (stepFlags (net.generate_graph_spec).layers (net.generate_graph_spec)._graph
          (l1.foldl (stepFlags (net.generate_graph_spec).layers (net.generate_graph_spec)._graph)
            (fun _ => none)) n) := by
    rw [hsplit]
    unfold runFlags
    rw [List.foldl_append]
    rfl
  have hvaln : runFlags (net.generate_graph_spec).layers (net.generate_graph_spec)._graph topo n =
      stepFlags (net.generate_graph_spec).layers (net.generate_graph_spec)._graph
        (l1.foldl (stepFlags (net.generate_graph_spec).layers (net.generate_graph_spec)._graph)
          (fun _ => none)) n n := by
    rw [hfold]
    exact foldl_stepFlags_not_mem _ _ l2 _ n hnl2
  have hagree : ∀ p ∈ l1,
      runFlags (net.generate_graph_spec).layers (net.generate_graph_spec)._graph topo p =
        (l1.foldl (stepFlags (net.generate_graph_spec).layers (net.generate_graph_spec)._graph)
          (fun _ => none)) p := by
    intro p hp
    have hpn := hl1n p hp
    rw [hfold]
    rw [foldl_stepFlags_not_mem _ _ l2 _ p hpn.2]
    exact stepFlags_ne _ _ _ n p hpn.1
  have hpred : ∀ p ∈ predsIn (net.generate_graph_spec)._graph n, p ∈ l1 := by
    intro p hp
    have hedge := (mem_predsIn _ p n).mp hp
    have hob := List.all_eq_true.mp hts _ hedge
    exact occursBefore_split topo p n hnd hob l1 l2 hsplit
  have hcong : predNB (net.generate_graph_spec)._graph
      (l1.foldl (stepFlags (net.generate_graph_spec).layers (net.generate_graph_spec)._graph)
        (fun _ => none)) n =
      predNB (net.generate_graph_spec)._graph
        (runFlags (net.generate_graph_spec).layers (net.generate_graph_spec)._graph topo) n :=
    predNB_congr _ _ _ n (fun p hp => (hagree p (hpred p hp)).symm)
  have hself : stepFlags (net.generate_graph_spec).layers (net.generate_graph_spec)._graph
      (l1.foldl (stepFlags (net.generate_graph_spec).layers (net.generate_graph_spec)._graph)
        (fun _ => none)) n n =
      some ⟨(predNB (net.generate_graph_spec)._graph
              (l1.foldl (stepFlags (net.generate_graph_spec).layers
                (net.generate_graph_spec)._graph) (fun _ => none)) n
             || (!layer.param.isEmpty && !layer.freeze)),
            some (predNB (net.generate_graph_spec)._graph
              (l1.foldl (stepFlags (net.generate_graph_spec).layers
                (net.generate_graph_spec)._graph) (fun _ => none)) n)⟩ := by
    unfold stepFlags
    simp [hlay]
  rw [hvaln, hself, hcong]

theorem C2_backward_flags_witness :
    (netC2.finish_with_order topoC2)._flags "B" = some ⟨true, some true⟩ := by
  have h := C2_backward_flags netC2 topoC2 (by decide) (by decide) "B" (plainLayer "B")
    (by decide) rfl
  rw [h]
  rfl

theorem bwd_foldl_sum (bwd : List BwdEntry) (store : List (String × Blob)) (a : Rat) :
    (bwd.foldl (fun acc e =>
      let s := bstep acc.1 e
      (s.1, acc.2 + s.2)) (store, a)).2 = a + (bwdLosses bwd store).sum := by
  induction bwd generalizing store a with
  | nil => simp [bwdLosses]
  | cons e rest ih =>
      simp only [List.foldl_cons, bwdLosses, List.sum_cons]
      rw [ih]
      ring

theorem fb_on_finished (N : Net) (fwd : List FwdEntry) (bwd : List BwdEntry)
    (hf : N._finished = true) (hi : N._input_blobs = some [])
    (ho : N._forward_order = some fwd) (hb : N._backward_order = some bwd) :
    N.forward_backward = .ok ((bwdLosses bwd (runForwardPlan fwd N.blobs)).sum) := by
  unfold Net.forward_backward
  rw [hf]
  rw [if_neg (by simp)]
  rw [hi]
  simp only
  rw [if_neg (by simp)]
  rw [ho, hb]
  simp only
  rw [bwd_foldl_sum]
  rw [zero_add]

theorem plan_name_lemma (layerorder : List String) (flags : String → Option NodeFlags)
    (mkF : String → FwdEntry) (mkB : String → BwdEntry)
    (hF : ∀ n, (mkF n).name = n) (hB : ∀ n, (mkB n).name = n) :
    ((layerorder.reverse.filter (fun n => nbOf flags n)).map mkB).map BwdEntry.name =
      (((layerorder.map mkF).map FwdEntry.name).reverse).filter (fun n => nbOf flags n) := by
  rw [List.map_map, List.map_map]
  have h1 : BwdEntry.name ∘ mkB = id := funext hB
  have h2 : FwdEntry.name ∘ mkF = id := funext hF
  rw [h1, h2, List.map_id, List.map_id]

/-- C3: on a net finished with a valid topological order and having no
input blobs, forward_backward runs the forward plan in plan (topological)
order, then the backward plan in plan order, and returns exactly the sum
of the loss contributions the backward calls return; and the backward
plan's layer sequence is the reverse of the forward plan's layer sequence
restricted to the layers whose need_backward flag is set. -/
theorem C3_forward_backward_sums (net : Net) (topo : List String)
    (hin : (net.finish_with_order topo)._input_blobs = some []) :
    (net.finish_with_order topo).forward_backward = .ok
      ((bwdLosses ((net.finish_with_order topo)._backward_order.getD [])
        (runForwardPlan ((net.finish_with_order topo)._forward_order.getD [])
          (net.finish_with_order topo).blobs)).sum) ∧
    ((net.finish_with_order topo)._backward_order.getD []).map BwdEntry.name =
      ((((net.finish_with_order topo)._forward_order.getD []).map FwdEntry.name).reverse).filter
        (fun n => nbOf (net.finish_with_order topo)._flags n) := by
  constructor
  · exact fb_on_finished (net.finish_with_order topo)
      ((net.finish_with_order topo)._forward_order.getD [])
      ((net.finish_with_order topo)._backward_order.getD [])
      rfl hin rfl rfl
  · exact plan_name_lemma
      (topo.filter (fun n => (lookupA (net.generate_graph_spec).layers n).isSome))
      (runFlags (net.generate_graph_spec).layers (net.generate_graph_spec)._graph topo)
      (fun n => FwdEntry.mk n
        ((lookupA (net.generate_graph_spec).layers n).getD (plainLayer n))
        (((net.generate_graph_spec)._actual_needs.bind (fun m => lookupA m n)).getD [])
        ((lookupA (net.generate_graph_spec)._provides n).getD []))
      (fun n => BwdEntry.mk n
        ((lookupA (net.generate_graph_spec).layers n).getD (plainLayer n))
        ((lookupA (net.generate_graph_spec)._needs n).getD [])
        ((lookupA (net.generate_graph_spec)._provides n).getD [])
        (((runFlags (net.generate_graph_spec).layers (net.generate_graph_spec)._graph topo n).bind
          NodeFlags.pd).getD false))
      (fun n => rfl) (fun n => rfl)

theorem C3_forward_backward_sums_witness :
    (netC3.finish_with_order topoC3).forward_backward = .ok 7 ∧
    ((netC3.finish_with_order topoC3)._backward_order.getD []).map BwdEntry.name =
      ["B", "A"] := by
  have h := C3_forward_backward_sums netC3 topoC3 rfl
  constructor
  · rw [h.1]
    have hl : bwdLosses ((netC3.finish_with_order topoC3)._backward_order.getD [])
        (runForwardPlan ((netC3.finish_with_order topoC3)._forward_order.getD [])
          (netC3.finish_with_order topoC3).blobs) = [7, 0] := rfl
    rw [hl]
    norm_num [List.sum_cons, List.sum_nil]
  · rw [h.2]
    rfl
